import Mathlib

/-!
Verification of the `phone.seek` embedder service (`src/embedder/main.py`).

The service is a thin HTTP layer over two external embedding models.  We
shallowly embed the request handlers as Lean functions.  The external ML
library calls (`SentenceTransformer.encode`, `PIL.Image.open`) and the
framework layers (pydantic validation, the filesystem) are not part of the
repository; they appear here either as abstract function parameters of the
handlers, or as definitions modelled from the spec where a claim depends on
the spec's stated contract for them.

Conventions:
  * `Img` is the type of decoded RGB images (abstract).
  * `E` is the type of a single embedding vector (abstract).
  * The filesystem is a function `fs : String → Option (Option Img)`:
    `none` means the path does not exist, `some none` means the path exists
    but its contents are not a decodable image (so `PIL.Image.open` raises),
    `some (some img)` means the path exists and decodes to `img`.
  * Fallible handlers return `Except Unit α`; `.error ()` is an uncaught
    exception, surfaced by the framework as a server-side failure.
-/

namespace Embedder

/-- Request body of `POST /embed/text` (pydantic model `TextRequest`). -/
structure TextRequest where
  text : String
deriving Repr, DecidableEq

/-- Request body of `POST /embed/texts` (pydantic model `TextsRequest`). -/
structure TextsRequest where
  texts : List String
deriving Repr, DecidableEq

/-- Request body of `POST /embed/image-paths` (pydantic model `ImagePathsRequest`). -/
structure ImagePathsRequest where
  paths : List String
deriving Repr, DecidableEq

/-- Response of `GET /health`. -/
structure HealthResponse where
  status : String
deriving Repr, DecidableEq

/-- Response of `POST /embed/text` and `POST /embed/image`. -/
structure EmbeddingResponse (E : Type) where
  embedding : E
deriving Repr, DecidableEq

/-- Response of `POST /embed/texts` and `POST /embed/image-paths`. -/
structure EmbeddingsResponse (E : Type) where
  embeddings : List E
deriving Repr, DecidableEq

/-- Handler of `GET /health`: returns the constant `{"status": "ok"}`.  The
source function mentions no model and takes no input. -/
def health : HealthResponse :=
  { status := "ok" }

/-- Modelled from the spec: the external text model's batch encode
(`text_model.encode` on a list, from `sentence_transformers`, not part of
this repository) "preserves order, empty input yields empty output" and
element `i` of the output corresponds to input `i`; it is therefore the
element-wise map of the per-text encoder `enc`. -/
def text_encode_batch {E : Type} (enc : String → E) (texts : List String) : List E :=
  texts.map enc

/-- Modelled from the spec: the external image model's batch encode
(`clip_model.encode` on a list, not part of this repository) returns one
embedding per input image, in order ("`encode_images(images) ->
sequence<Embedding>`"); it is the element-wise map of the per-image
encoder `enc`. -/
def clip_encode_images {Img E : Type} (enc : Img → E) (images : List Img) : List E :=
  images.map enc

/-- Handler of `POST /embed/text`: encodes the single text with the text
model (`enc` abstracts `text_model.encode` on one string). -/
def embed_text {E : Type} (enc : String → E) (req : TextRequest) : EmbeddingResponse E :=
  { embedding := enc req.text }

/-- Handler of `POST /embed/texts`: encodes the whole list with the text
model's batch encode. -/
def embed_texts {E : Type} (enc : String → E) (req : TextsRequest) : EmbeddingsResponse E :=
  { embeddings := text_encode_batch enc req.texts }

/-- Handler of `POST /embed/image`: decode the uploaded bytes
(`decode` abstracts `PIL.Image.open(...).convert("RGB")`, which raises on
undecodable bytes), then encode with the image model (`enc` abstracts
`clip_model.encode` on one image). -/
def embed_image {Img E : Type} (decode : List Nat → Option Img) (enc : Img → E)
    (contents : List Nat) : Except Unit (EmbeddingResponse E) :=
  match decode contents with
  | none => .error ()
  | some image => .ok { embedding := enc image }

/-- The `for p in req.paths` loop of `embed_image_paths`: skip paths that do
not exist (`path.exists()` is false), open and convert the rest in order;
`Image.open` raising on an existing but undecodable path aborts the whole
loop. -/
def gather_images {Img : Type} (fs : String → Option (Option Img)) :
    List String → Except Unit (List Img)
  | [] => .ok []
  | p :: ps =>
    match fs p with
    | none => gather_images fs ps
    | some none => .error ()
    | some (some img) =>
      match gather_images fs ps with
      | .error e => .error e
      | .ok rest => .ok (img :: rest)

/-- Handler of `POST /embed/image-paths`: filter and decode the paths; if no
image survives, return `{"embeddings": []}` without calling the model;
otherwise return the batch encoding (`clip_encode` abstracts
`clip_model.encode` on a list). -/
def embed_image_paths {Img E : Type} (clip_encode : List Img → List E)
    (fs : String → Option (Option Img)) (req : ImagePathsRequest) :
    Except Unit (EmbeddingsResponse E) :=
  match gather_images fs req.paths with
  | .error e => .error e
  | .ok images =>
    if images.isEmpty then .ok { embeddings := [] }
    else .ok { embeddings := clip_encode images }

/-- Modelled from the spec: FastAPI/pydantic body validation (not part of
this repository).  A minimal JSON value type. -/
inductive Json where
  | null
  | bool (b : Bool)
  | num (n : Int)
  | str (s : String)
  | arr (elems : List Json)
  | obj (fields : List (String × Json))
deriving Repr

/-- Modelled from the spec: pydantic validation of `TextRequest` ("malformed
JSON body or missing required field — rejected before any model call"): the
body must be a JSON object whose `"text"` field is a string; anything else
fails validation. -/
def parseTextRequest : Json → Option TextRequest
  | Json.obj fields =>
    match fields.lookup "text" with
    | some (Json.str s) => some { text := s }
    | _ => none
  | _ => none

/-- Modelled from the spec: the `POST /embed/text` route as seen from the
wire.  `body = none` is a malformed (unparseable) JSON body; otherwise the
body is validated and, only on success, handed to the `embed_text` handler.
A validation failure is returned as HTTP 422 without touching `enc`. -/
def embed_text_route {E : Type} (enc : String → E) (body : Option Json) :
    Except Nat (EmbeddingResponse E) :=
  match body with
  | none => .error 422
  | some j =>
    match parseTextRequest j with
    | none => .error 422
    | some req => .ok (embed_text enc req)

/-- Value of one decimal digit character; `none` for a non-digit. -/
def charDigit (c : Char) : Option Nat :=
  if c.isDigit then some (c.toNat - 48) else none

/-- Accumulate a decimal digit string into a number; `none` on a non-digit. -/
def digitsVal (acc : Nat) : List Char → Option Nat
  | [] => some acc
  | c :: cs =>
    match charDigit c with
    | none => none
    | some d => digitsVal (10 * acc + d) cs

/-- Python's `int(str)` on the common forms `"123"` and `"-123"` (an optional
sign followed by at least one decimal digit); every other string raises
`ValueError`, modelled as `none`.  Exotic accepted forms (surrounding
whitespace, `+` sign, digit-group underscores) are not modelled. -/
def pyInt (s : String) : Option Int :=
  match s.data with
  | [] => none
  | '-' :: cs =>
    match cs with
    | [] => none
    | _ => (digitsVal 0 cs).map fun n => -(n : Int)
  | cs => (digitsVal 0 cs).map fun n => (n : Int)

/-- `num_threads = int(os.environ.get("TORCH_NUM_THREADS", os.cpu_count() or 1))`.
`env` is the process environment, `cpu_count` is `os.cpu_count()` (which may
be `None`).  `int()` on an unparseable string raises, modelled as `none`. -/
def num_threads (env : String → Option String) (cpu_count : Option Nat) : Option Int :=
  match env "TORCH_NUM_THREADS" with
  | some s => pyInt s
  | none => some ((cpu_count.getD 1 : Nat) : Int)

end Embedder

namespace Embedder

/-! ### Helper lemmas about the path-gathering loop -/

/-- If every listed path is missing, the gathering loop produces no images. -/
theorem gather_images_all_missing {Img : Type} (fs : String → Option (Option Img))
    (paths : List String) (h : ∀ p ∈ paths, fs p = none) :
    gather_images fs paths = .ok [] := by
  induction paths with
  | nil => simp [gather_images]
  | cons p ps ih =>
    simp [gather_images, h p (List.mem_cons_self _ _)]
    exact ih fun q hq => h q (List.mem_cons_of_mem _ hq)

/-- If some listed path exists but is undecodable, the gathering loop raises. -/
theorem gather_images_error_of_undecodable {Img : Type} (fs : String → Option (Option Img))
    (paths : List String) (h : ∃ p ∈ paths, fs p = some none) :
    gather_images fs paths = .error () := by
  induction paths with
  | nil => simp at h
  | cons p ps ih =>
    rcases h with ⟨q, hq, hfq⟩
    rcases List.mem_cons.mp hq with rfl | hqs
    · simp [gather_images, hfq]
    · have ihe := ih ⟨q, hqs, hfq⟩
      cases hfp : fs p with
      | none => simpa [gather_images, hfp] using ihe
      | some o =>
        cases o with
        | none => simp [gather_images, hfp]
        | some img => simp [gather_images, hfp, ihe]

/-- If every existing path is decodable, the gathering loop succeeds and
returns exactly the decoded images of the existing paths, in input order. -/
theorem gather_images_of_all_decodable {Img : Type} (fs : String → Option (Option Img))
    (paths : List String) (h : ∀ p ∈ paths, fs p ≠ some none) :
    gather_images fs paths = .ok (paths.filterMap fun p => (fs p).bind id) := by
  induction paths with
  | nil => simp [gather_images]
  | cons p ps ih =>
    have ihe := ih fun q hq => h q (List.mem_cons_of_mem _ hq)
    cases hfp : fs p with
    | none => simp [gather_images, hfp, ihe, List.filterMap_cons]
    | some o =>
      cases o with
      | none => exact absurd hfp (h p (List.mem_cons_self _ _))
      | some img => simp [gather_images, hfp, ihe, List.filterMap_cons]

/-- Dropping the nonexistent paths from a request changes nothing: the
gathering loop behaves identically (same images, same error) on the
original list and on its restriction to existing paths. -/
theorem gather_images_filter_existing {Img : Type} (fs : String → Option (Option Img))
    (paths : List String) :
    gather_images fs (paths.filter fun p => (fs p).isSome) = gather_images fs paths := by
  induction paths with
  | nil => rfl
  | cons p ps ih =>
    cases hfp : fs p with
    | none => simp [List.filter_cons, hfp, gather_images, ih]
    | some o =>
      cases o with
      | none => simp [List.filter_cons, hfp, gather_images, ih]
      | some img => simp [List.filter_cons, hfp, gather_images, ih]

/-! ### Claim theorems -/

/-- C1: in `POST /embed/image-paths`, every nonexistent path is dropped
before embedding: for every request, every filesystem and every batch
encoder, the response is the same as for the request restricted to its
existing paths.  In particular a request listing exactly one existing
decodable path and one nonexistent path — in either order — yields exactly
one embedding, that of the existing path. -/
theorem embed_image_paths_drops_missing {Img E : Type} :
    (∀ (clip_encode : List Img → List E) (fs : String → Option (Option Img))
       (paths : List String),
      embed_image_paths clip_encode fs { paths := paths } =
        embed_image_paths clip_encode fs
          { paths := paths.filter fun p => (fs p).isSome }) ∧
    (∀ (enc : Img → E) (fs : String → Option (Option Img)) (p q : String) (img : Img),
      fs p = some (some img) → fs q = none →
      embed_image_paths (clip_encode_images enc) fs { paths := [p, q] } =
        .ok { embeddings := [enc img] } ∧
      embed_image_paths (clip_encode_images enc) fs { paths := [q, p] } =
        .ok { embeddings := [enc img] }) := by
  refine ⟨fun clip_encode fs paths => ?_, fun enc fs p q img hp hq => ?_⟩
  · simp [embed_image_paths, gather_images_filter_existing fs paths]
  · exact ⟨by simp [embed_image_paths, gather_images, hp, hq, clip_encode_images],
      by simp [embed_image_paths, gather_images, hp, hq, clip_encode_images]⟩

/-- Witness for C1 at a concrete filesystem, with the mixed two-path request
in both orders. -/
theorem embed_image_paths_drops_missing_witness :
    (embed_image_paths (clip_encode_images fun i : Nat => i)
      (fun s => if s = "a.jpg" then some (some (0 : Nat)) else none)
      { paths := ["a.jpg", "missing.jpg"] } = .ok { embeddings := [0] }) ∧
    (embed_image_paths (clip_encode_images fun i : Nat => i)
      (fun s => if s = "a.jpg" then some (some (0 : Nat)) else none)
      { paths := ["missing.jpg", "a.jpg"] } = .ok { embeddings := [0] }) :=
  embed_image_paths_drops_missing.2 (fun i => i) _ "a.jpg" "missing.jpg" 0
    (by decide) (by decide)

/-- C2: in `POST /embed/image-paths`, when no listed path exists (including
the empty list), the handler returns `{"embeddings": []}` as a success, and
the result is independent of the batch encoder — the model is not invoked. -/
theorem embed_image_paths_all_missing {Img E : Type} (clip_encode : List Img → List E)
    (fs : String → Option (Option Img)) (paths : List String)
    (h : ∀ p ∈ paths, fs p = none) :
    embed_image_paths clip_encode fs { paths := paths } = .ok { embeddings := [] } := by
  simp [embed_image_paths, gather_images_all_missing fs paths h]

/-- Witness for C2 at a concrete all-missing filesystem. -/
theorem embed_image_paths_all_missing_witness :
    embed_image_paths (fun l : List Nat => l) (fun _ => (none : Option (Option Nat)))
      { paths := ["x", "y"] } = .ok { embeddings := [] } :=
  embed_image_paths_all_missing _ _ _ fun _ _ => rfl

/-- C9: in `POST /embed/image-paths`, a path that exists but is undecodable
is not skipped: the decode raises, the whole request fails with a server
error, and no embeddings are returned — for any batch encoder and even when
other listed paths are decodable. -/
theorem embed_image_paths_undecodable_fails {Img E : Type}
    (clip_encode : List Img → List E) (fs : String → Option (Option Img))
    (paths : List String) (h : ∃ p ∈ paths, fs p = some none) :
    embed_image_paths clip_encode fs { paths := paths } = .error () := by
  simp [embed_image_paths, gather_images_error_of_undecodable fs paths h]

/-- Witness for C9: an earlier decodable path does not save the request. -/
theorem embed_image_paths_undecodable_fails_witness :
    embed_image_paths (clip_encode_images fun i : Nat => i)
      (fun s => if s = "good" then some (some 7) else
                if s = "bad" then some none else none)
      { paths := ["good", "bad"] } = .error () :=
  embed_image_paths_undecodable_fails _ _ _ ⟨"bad", by decide, by decide⟩

/-- C10: in `POST /embed/image-paths`, the existence filter preserves the
relative order of the input list: when every existing path decodes, the
response is exactly the in-order image embeddings of the surviving paths,
so `embeddings[j]` corresponds to the j-th existing path. -/
theorem embed_image_paths_preserves_order {Img E : Type} (enc : Img → E)
    (fs : String → Option (Option Img)) (paths : List String)
    (h : ∀ p ∈ paths, fs p ≠ some none) :
    embed_image_paths (clip_encode_images enc) fs { paths := paths } =
      .ok { embeddings := (paths.filterMap fun p => (fs p).bind id).map enc } := by
  have hg := gather_images_of_all_decodable fs paths h
  cases hl : paths.filterMap fun p => (fs p).bind id with
  | nil => rw [hl] at hg; simp [embed_image_paths, hg, clip_encode_images]
  | cons i is => rw [hl] at hg; simp [embed_image_paths, hg, clip_encode_images]

/-- Witness for C10: three paths with the middle one missing; the response
keeps the embeddings of the first and third in order. -/
theorem embed_image_paths_preserves_order_witness :
    embed_image_paths (clip_encode_images fun i : Nat => i + 1)
      (fun s => if s = "a" then some (some 10) else
                if s = "c" then some (some 30) else none)
      { paths := ["a", "b", "c"] } = .ok { embeddings := [11, 31] } :=
  embed_image_paths_preserves_order (fun i : Nat => i + 1) _ ["a", "b", "c"] (by decide)

/-- C3: `embed_texts` returns as many embeddings as input texts, and element
`i` of the batch output equals the `embed_text` output on text `i`: the
batch endpoint preserves input order and agrees element-wise with the
single-text endpoint. -/
theorem embed_texts_agrees_with_embed_text {E : Type} (enc : String → E)
    (T : List String) :
    (embed_texts enc { texts := T }).embeddings.length = T.length ∧
    ∀ i : Nat, (embed_texts enc { texts := T }).embeddings[i]? =
      (T[i]?).map fun t => (embed_text enc { text := t }).embedding := by
  refine ⟨by simp [embed_texts, text_encode_batch], fun i => ?_⟩
  simp [embed_texts, text_encode_batch, embed_text, List.getElem?_map]

/-- C4: `embed_texts` on the empty list of texts returns the empty list of
embeddings. -/
theorem embed_texts_empty {E : Type} (enc : String → E) :
    embed_texts enc { texts := [] } = { embeddings := [] } :=
  rfl

/-- C5: the `GET /health` handler returns `{"status": "ok"}`; it takes no
input and mentions no model, so it succeeds regardless of model state and
performs no model access. -/
theorem health_returns_ok : health = { status := "ok" } :=
  rfl

/-- C6: a `POST /embed/text` body that is malformed JSON or fails
`TextRequest` validation (e.g. missing the `text` field) yields a 422
validation failure, for every text encoder — so the rejection happens
before any model call and the handler does not crash. -/
theorem embed_text_route_rejects_invalid {E : Type} (body : Option Json)
    (h : ∀ j, body = some j → parseTextRequest j = none) (enc : String → E) :
    embed_text_route enc body = .error 422 := by
  cases body with
  | none => rfl
  | some j => simp [embed_text_route, h j rfl]

/-- Witness for C6: a JSON object with no `text` field is rejected. -/
theorem embed_text_route_rejects_invalid_witness :
    embed_text_route (fun _ => (0 : Nat)) (some (Json.obj [])) = .error 422 :=
  embed_text_route_rejects_invalid (some (Json.obj []))
    (fun j hj => by cases hj; rfl) (fun _ => 0)

/-- C7: in `POST /embed/image`, when the uploaded bytes do not decode as an
image, the handler fails with a server-side error, for every image encoder
— no embedding is returned and the model is not called. -/
theorem embed_image_decode_failure {Img E : Type} (decode : List Nat → Option Img)
    (contents : List Nat) (h : decode contents = none) (enc : Img → E) :
    embed_image decode enc contents = .error () := by
  simp [embed_image, h]

/-- Witness for C7 at a concrete always-failing decoder. -/
theorem embed_image_decode_failure_witness :
    embed_image (fun _ => (none : Option Nat)) (fun i => i) [1, 2, 3] = .error () :=
  embed_image_decode_failure _ [1, 2, 3] rfl _

/-- C8: startup thread-count selection: (a) when `TORCH_NUM_THREADS` is set
to a string that parses as an integer `k`, the thread count is `k`; (b) when
it is unset and the host reports `n` logical CPUs, the thread count defaults
to `n`; (c) the thread count depends on the environment only through the
`TORCH_NUM_THREADS` entry — no other environment variable is recognized. -/
theorem num_threads_selection :
    (∀ (env : String → Option String) (cpu_count : Option Nat) (s : String) (k : Int),
      env "TORCH_NUM_THREADS" = some s → pyInt s = some k →
      num_threads env cpu_count = some k) ∧
    (∀ (env : String → Option String) (n : Nat),
      env "TORCH_NUM_THREADS" = none →
      num_threads env (some n) = some (n : Int)) ∧
    (∀ (env env2 : String → Option String) (cpu_count : Option Nat),
      env "TORCH_NUM_THREADS" = env2 "TORCH_NUM_THREADS" →
      num_threads env cpu_count = num_threads env2 cpu_count) := by
  refine ⟨fun env cpu_count s k hs hk => ?_, fun env n hn => ?_, fun env env2 cpu_count he => ?_⟩
  · simp [num_threads, hs, hk]
  · simp [num_threads, hn]
  · simp [num_threads, he]

/-- Witness for C8: each clause evaluated at a concrete environment. -/
theorem num_threads_selection_witness :
    num_threads (fun k => if k = "TORCH_NUM_THREADS" then some "4" else none) (some 8) =
      some 4 ∧
    num_threads (fun _ => none) (some 8) = some 8 ∧
    num_threads (fun k => if k = "TORCH_NUM_THREADS" then some "4" else none) (some 8) =
      num_threads (fun _ => some "4") (some 8) :=
  ⟨num_threads_selection.1 _ (some 8) "4" 4 rfl (by decide),
   num_threads_selection.2.1 _ 8 rfl,
   num_threads_selection.2.2 _ _ (some 8) rfl⟩

end Embedder
